import Mathlib

/-!
Wine catalog front end, `frontend/script.js`

A shallow embedding of the three functions of `script.js` (`currency`,
`searchProducts`, `loadProduct`) together with the fragment of the JavaScript
runtime they rely on: strings, JSON values, truthiness, string conversion,
property reads, `encodeURIComponent` and `trim`.

* A JavaScript string is its sequence of UTF-16 code units, so that a string
  with an unpaired surrogate (JSON can hold one) exists and makes
  `encodeURIComponent` throw. Text written as a Lean string literal is
  converted by `JSString.ofString`.
* Numbers are kept abstract (`Num`): how a number prints, whether it is falsy
  and how the locale formatter renders it are fields of `Host`.
* `n.toLocaleString('es-AR', ...)`, `fetch`, `location` and the QR widget are
  collaborators: the first three are fields of `Host`, the last one is a log
  in `Page`.
* A thrown exception (a rejected promise for the two `async` functions) is an
  `Except.error`; the page state reached before the throw is kept.
* `searchProducts` runs when `#results` exists and `loadProduct` when `#product`
  exists (the `DOMContentLoaded` handler checks both); `#q` and `#qrcode` are
  taken to exist on the same pages.
-/

namespace Wine

/-! ## JavaScript strings -/

/-- A JavaScript string: its UTF-16 code units, each below `0x10000`. -/
structure JSString where
  units : List Nat
  deriving DecidableEq, Repr

namespace JSString

/-- UTF-16 code units of one character: one unit in the basic plane, a
surrogate pair above it. -/
def utf16Units (c : Char) : List Nat :=
  if c.toNat < 0x10000 then [c.toNat]
  else [0xD800 + (c.toNat - 0x10000) / 0x400, 0xDC00 + (c.toNat - 0x10000) % 0x400]

/-- The JavaScript string of a text. -/
def ofString (s : String) : JSString :=
  ⟨s.toList.flatMap utf16Units⟩

instance : Coe String JSString := ⟨ofString⟩

instance : Append JSString := ⟨fun a b => ⟨a.units ++ b.units⟩⟩

/-- The method `String.prototype.isWellFormed` on code units: every surrogate
is half of a pair. -/
def wellFormedUnits : List Nat → Bool
  | [] => true
  | u :: rest =>
      if u < 0xD800 || 0xDFFF < u then wellFormedUnits rest
      else if 0xDC00 ≤ u then false
      else
        match rest with
        | [] => false
        | l :: rest2 => (0xDC00 ≤ l && l ≤ 0xDFFF) && wellFormedUnits rest2

/-- The method `String.prototype.isWellFormed`. -/
def isWellFormed (s : JSString) : Bool :=
  wellFormedUnits s.units

/-- The method `Array.prototype.join` on strings. -/
def join (sep : JSString) (parts : List JSString) : JSString :=
  ⟨List.intercalate sep.units (parts.map (fun part => part.units))⟩

end JSString

/-! ## JavaScript values -/

/-- Exceptions the modelled fragment can raise. -/
inductive JSError where
  | typeError
  | syntaxError
  | networkError
  | uriError
  deriving DecidableEq, Repr

/-- A value produced by `JSON.parse`, plus `undefined` for a property that is
not there. `obj` lists the own properties, each key once. -/
inductive JSValue (Num : Type) where
  | undefined
  | null
  | bool (b : Bool)
  | num (n : Num)
  | str (s : JSString)
  | arr (items : List (JSValue Num))
  | obj (props : List (JSString × JSValue Num))

/-- What `fetch` resolves to: the status code and the outcome of `res.json()`
(an error when the body is not JSON). -/
structure Response (Num : Type) where
  status : Nat
  json : Except JSError (JSValue Num)

/-- The runtime around the script. -/
structure Host (Num : Type) where
  /-- The operation `Number::toString`, as used by template literals and by `+`;
  its output is plain text (digits, sign, point, exponent, `Infinity`, `NaN`). -/
  numToString : Num → String
  /-- Whether a number is falsy (`0`, `-0`, `NaN`). -/
  numIsFalsy : Num → Bool
  /-- The call `n.toLocaleString('es-AR', { style: 'currency', currency: 'ARS' })`;
  `none` when the call throws. -/
  toLocaleString : JSValue Num → Option JSString
  /-- The catalog behind `fetch(url)`; an error when the request itself fails. -/
  fetch : JSString → Except JSError (Response Num)
  /-- Value of `location.origin`. -/
  origin : JSString
  /-- Value of `location.pathname`. -/
  pathname : JSString

namespace JSValue

variable {Num : Type}

/-- JavaScript truthiness (`ToBoolean`). -/
def truthy (host : Host Num) : JSValue Num → Bool
  | undefined => false
  | null => false
  | bool b => b
  | num n => !host.numIsFalsy n
  | str s => s != ""
  | arr _ => true
  | obj _ => true

/-- Own property of an object, `undefined` when the key is missing. -/
def lookupProp : List (JSString × JSValue Num) → JSString → JSValue Num
  | [], _ => undefined
  | (k, v) :: rest, key => if k = key then v else lookupProp rest key

/-- The read `v.key` for a key that no built-in prototype defines (every key
read by the script is such a key): a `TypeError` on `undefined` and `null`, the
own property on an object, `undefined` on the other values. -/
def getProp : JSValue Num → JSString → Except JSError (JSValue Num)
  | undefined, _ => .error .typeError
  | null, _ => .error .typeError
  | obj props, key => .ok (lookupProp props key)
  | _, _ => .ok undefined

/-- The comparison `v === 'text'` against a string literal. -/
def strictEqStr : JSValue Num → JSString → Bool
  | str s, text => s == text
  | _, _ => false

mutual
/-- String conversion (`ToString`), as performed by a template literal hole and by
`+` with a string operand. An object prints as `[object Object]` unless an own
`toString` property (never callable in JSON) shadows the inherited method, in
which case the conversion throws. An array joins its elements with commas. -/
def toStr (host : Host Num) : JSValue Num → Except JSError JSString
  | undefined => .ok "undefined"
  | null => .ok "null"
  | bool b => .ok (if b then "true" else "false")
  | num n => .ok (host.numToString n)
  | str s => .ok s
  | arr items => (itemStrs host items).map (fun parts => JSString.join "," parts)
  | obj props =>
      if props.any (fun kv => kv.1 == "toString") then .error .typeError
      else .ok "[object Object]"
termination_by structural v => v
/-- The pieces `Array.prototype.join` concatenates: `undefined` and `null`
give the empty string. -/
def itemStrs (host : Host Num) : List (JSValue Num) → Except JSError (List JSString)
  | [] => .ok []
  | x :: rest => do
      let a ← (match x with
        | undefined => (.ok "" : Except JSError JSString)
        | null => .ok ""
        | v => toStr host v)
      let b ← itemStrs host rest
      pure (a :: b)
termination_by structural l => l
end

/-- Neither an array nor an object. -/
def isPrimitive : JSValue Num → Bool
  | arr _ => false
  | obj _ => false
  | _ => true

/-- Both `undefined` and `null` count as an absent field. -/
def isAbsent : JSValue Num → Bool
  | undefined => true
  | null => true
  | _ => false

end JSValue

open JSValue

/-! ## `encodeURIComponent` and `String.prototype.trim` -/

/-- Code units `encodeURIComponent` leaves as they are: ASCII digits and
letters and the nine marks `- _ . ! ~ * ' ( )`. -/
def isUriUnreserved (u : Nat) : Bool :=
  (48 ≤ u && u ≤ 57) || (65 ≤ u && u ≤ 90) || (97 ≤ u && u ≤ 122)
    || u == 45 || u == 95 || u == 46 || u == 33 || u == 126 || u == 42 || u == 39
    || u == 40 || u == 41

/-- Code unit of an upper-case hexadecimal digit. -/
def hexDigit (d : Nat) : Nat :=
  if d < 10 then 48 + d else 55 + d

/-- The escape `%XX` of one byte. -/
def percentByte (b : Nat) : List Nat :=
  [37, hexDigit (b / 16), hexDigit (b % 16)]

/-- UTF-8 bytes of a code point. -/
def utf8Bytes (n : Nat) : List Nat :=
  if n < 0x80 then [n]
  else if n < 0x800 then [0xC0 + n / 64, 0x80 + n % 64]
  else if n < 0x10000 then [0xE0 + n / 4096, 0x80 + n / 64 % 64, 0x80 + n % 64]
  else [0xF0 + n / 262144, 0x80 + n / 4096 % 64, 0x80 + n / 64 % 64, 0x80 + n % 64]

/-- The escapes of the UTF-8 bytes of a code point. -/
def percentEscape (cp : Nat) : List Nat :=
  (utf8Bytes cp).flatMap percentByte

/-- The loop of `encodeURIComponent` over the code units: an unreserved unit is
kept, any other code point is escaped, an unpaired surrogate is a `URIError`. -/
def encodeUnits : List Nat → Except JSError (List Nat)
  | [] => .ok []
  | u :: rest =>
      if isUriUnreserved u then (encodeUnits rest).map (fun out => u :: out)
      else if u < 0xD800 || 0xDFFF < u then
        (encodeUnits rest).map (fun out => percentEscape u ++ out)
      else if 0xDC00 ≤ u then .error .uriError
      else
        match rest with
        | [] => .error .uriError
        | l :: rest2 =>
            if 0xDC00 ≤ l && l ≤ 0xDFFF then
              (encodeUnits rest2).map (fun out =>
                percentEscape (0x10000 + (u - 0xD800) * 0x400 + (l - 0xDC00)) ++ out)
            else .error .uriError

/-- The built-in `encodeURIComponent`. -/
def encodeURIComponent (s : JSString) : Except JSError JSString :=
  (encodeUnits s.units).map JSString.mk

/-- What `encodeURIComponent` returns on a text, which holds no unpaired
surrogate: each character kept or escaped. -/
def percentEncode (s : String) : JSString :=
  ⟨s.toList.flatMap (fun c =>
    if isUriUnreserved c.toNat then [c.toNat] else percentEscape c.toNat)⟩

/-- White space and line terminators that `trim` strips. -/
def isJSSpace (n : Nat) : Bool :=
  n = 0x09 || n = 0x0A || n = 0x0B || n = 0x0C || n = 0x0D || n = 0x20 || n = 0xA0
    || n = 0x1680 || (0x2000 ≤ n && n ≤ 0x200A) || n = 0x2028 || n = 0x2029
    || n = 0x202F || n = 0x205F || n = 0x3000 || n = 0xFEFF

/-- The method `String.prototype.trim`. -/
def jsTrim (s : JSString) : JSString :=
  ⟨((s.units.dropWhile isJSSpace).reverse.dropWhile isJSSpace).reverse⟩

/-! ## `script.js` -/

variable {Num : Type}

/-- The constant `API_BASE`. -/
def API_BASE : JSString := "/api"

/-- The function `currency(n)`: the locale rendering, or the dollar sign followed by
the stringified argument when the locale call throws. -/
def currency (host : Host Num) (n : JSValue Num) : Except JSError JSString :=
  match host.toLocaleString n with
  | some s => .ok s
  | none => (toStr host n).map (fun raw => "$" ++ raw)

/-- The hole pair `p.name` and `p.year ? '('+p.year+')' : ''`, separated by a
space, of the `h3` of a card and of the `h2` of the detail view. -/
def titleLine (host : Host Num) (p : JSValue Num) : Except JSError JSString := do
  let name ← getProp p "name"
  let nameText ← toStr host name
  let year ← getProp p "year"
  let yearText ← (if truthy host year then
      (toStr host year).map (fun (y : JSString) => "(" ++ y ++ ")")
    else .ok "")
  pure (nameText ++ " " ++ yearText)

/-- The hole pair `p.winery || ''` and `p.varietal ? '· ' + p.varietal : ''`,
separated by a space, of the second line of a card and of the detail view. -/
def subtitleLine (host : Host Num) (p : JSValue Num) : Except JSError JSString := do
  let winery ← getProp p "winery"
  let wineryText ← toStr host (if truthy host winery then winery else str "")
  let varietal ← getProp p "varietal"
  let varietalText ← (if truthy host varietal then
      (toStr host varietal).map (fun (v : JSString) => "· " ++ v)
    else .ok "")
  pure (wineryText ++ " " ++ varietalText)

/-- The values that fill the holes of the card template; `promo` records whether
the hole `p.promo_applied ? '<span class="badge">promo</span>' : ''` took its
first branch, `pid` is `encodeURIComponent(p.pid)`. -/
structure Card where
  title : JSString
  subtitle : JSString
  price : JSString
  promo : Bool
  note : JSString
  pid : JSString
  deriving DecidableEq, Repr

/-- The template literal assigned to `card.innerHTML`. -/
def Card.render (c : Card) : JSString :=
  "\n      <h3>" ++ c.title ++ "</h3>\n      <div>" ++ c.subtitle
    ++ "</div>\n      <div class=\"price\">" ++ c.price ++ "\n        "
    ++ (if c.promo then ("<span class=\"badge\">promo</span>" : JSString) else "")
    ++ "\n      </div>\n      <div class=\"note\">Lista: " ++ c.note
    ++ "</div>\n      <a href=\"./product.html?pid=" ++ c.pid ++ "\">Ver ficha</a>\n    "

/-- The holes of the card template, evaluated left to right. -/
def cardModel (host : Host Num) (p : JSValue Num) : Except JSError Card := do
  let title ← titleLine host p
  let subtitle ← subtitleLine host p
  let priceFinal ← getProp p "price_final"
  let price ← currency host priceFinal
  let promo ← getProp p "promo_applied"
  let priceList ← getProp p "price_list"
  let note ← currency host priceList
  let pid ← getProp p "pid"
  let pidText ← toStr host pid
  let pidEncoded ← encodeURIComponent pidText
  pure ⟨title, subtitle, price, truthy host promo, note, pidEncoded⟩

/-- An element created by the script. -/
structure Element where
  className : JSString
  innerHTML : JSString
  deriving DecidableEq, Repr

/-- The options object handed to `new QRCode(qrDiv, ...)`. -/
structure QROptions where
  text : JSString
  width : Nat
  height : Nat
  deriving DecidableEq, Repr

/-- What the script can observe or change outside itself. -/
structure Page where
  /-- Children of `#results`. -/
  results : List Element
  /-- Content (`innerHTML`) of `#product`. -/
  product : JSString
  /-- Content (`innerHTML`) of `#qrcode`, as far as the script writes it. -/
  qrcode : JSString
  /-- Addresses passed to `fetch`, oldest first. -/
  requests : List JSString
  /-- Number of `res.json()` calls. -/
  bodyReads : Nat
  /-- Calls of `new QRCode(qrDiv, ...)`, oldest first. -/
  qrCalls : List QROptions
  deriving DecidableEq, Repr

/-- A page with nothing rendered and nothing requested. -/
def Page.blank : Page :=
  ⟨[], "", "", [], 0, []⟩

/-- How a call ended: the page it left and the exception it threw, if any. -/
structure Completion where
  page : Page
  thrown : Option JSError
  deriving DecidableEq, Repr

/-- The loop `items.forEach(p => ...)` over an array: one `div.card` appended per
item; an exception in the callback stops the loop. -/
def appendCards (host : Host Num) : List (JSValue Num) → Page → Completion
  | [], page => ⟨page, none⟩
  | p :: rest, page =>
      match cardModel host p with
      | .error e => ⟨page, some e⟩
      | .ok card =>
          appendCards host rest { page with results := page.results ++ [⟨"card", card.render⟩] }

/-- The address `searchProducts` requests for the search box content `q`; the
encoding of `q` can throw. -/
def searchUrl (q : JSString) : Except JSError JSString :=
  if q != "" then (encodeURIComponent q).map (fun enc => API_BASE ++ "/products?q=" ++ enc)
  else .ok (API_BASE ++ "/products")

/-- The function `searchProducts()`; `qValue` is the value of the input `#q`. -/
def searchProducts (host : Host Num) (qValue : JSString) (page : Page) : Completion :=
  let q := jsTrim qValue
  match searchUrl q with
  | .error e => ⟨page, some e⟩
  | .ok url =>
      let page := { page with requests := page.requests ++ [url] }
      match host.fetch url with
      | .error e => ⟨page, some e⟩
      | .ok res =>
          let page := { page with bodyReads := page.bodyReads + 1 }
          match res.json with
          | .error e => ⟨page, some e⟩
          | .ok items =>
              let page := { page with results := [] }
              match items with
              | .arr ps => appendCards host ps page
              | _ => ⟨page, some .typeError⟩

/-- The variable `promoText` of `loadProduct`: empty, then overwritten by each of
the two `if` statements whose test holds. -/
def promoText (host : Host Num) (promo : JSValue Num) : Except JSError JSString :=
  if truthy host promo then do
    let type1 ← getProp promo "type"
    let text1 ← (if strictEqStr type1 "percent" then do
        let value ← getProp promo "value"
        let valueText ← toStr host value
        pure ("(-" ++ valueText ++ "% aplicado)")
      else pure "")
    let type2 ← getProp promo "type"
    if strictEqStr type2 "two_for" then do
      let twoTotal ← getProp promo "two_total"
      let twoTotalText ← currency host twoTotal
      let unit ← getProp promo "unit"
      let unitText ← currency host unit
      pure ("(2x por " ++ twoTotalText ++ " → " ++ unitText ++ " c/u)")
    else pure text1
  else pure ""

/-- The values that fill the holes of the detail template; `badge` is `some text`
when the hole `promo ? '<div class="badge">...</div>' : ''` took its first
branch, with `text` the value of `promoText`. -/
structure Detail where
  title : JSString
  subtitle : JSString
  description : JSString
  price : JSString
  note : JSString
  badge : Option JSString
  stock : JSString
  deriving DecidableEq, Repr

/-- The template literal assigned to the `innerHTML` of `#product`. -/
def Detail.render (d : Detail) : JSString :=
  "\n    <h2>" ++ d.title ++ "</h2>\n    <div>" ++ d.subtitle ++ "</div>\n    <p>"
    ++ d.description ++ "</p>\n    <div class=\"price\">" ++ d.price
    ++ " <span class=\"note\">Lista: " ++ d.note ++ "</span></div>\n    "
    ++ (match d.badge with
        | some text => ("<div class=\"badge\">" : JSString) ++ text ++ "</div>"
        | none => "")
    ++ "\n    <div>Estado: " ++ d.stock ++ "</div>\n  "

/-- The part of `loadProduct` from `const promo` to the holes of the template,
evaluated in source order. -/
def detailModel (host : Host Num) (p : JSValue Num) : Except JSError Detail := do
  let promo ← getProp p "promo_applied"
  let text ← promoText host promo
  let title ← titleLine host p
  let subtitle ← subtitleLine host p
  let description ← getProp p "description"
  let descriptionText ← toStr host (if truthy host description then description else str "")
  let priceFinal ← getProp p "price_final"
  let price ← currency host priceFinal
  let priceList ← getProp p "price_list"
  let note ← currency host priceList
  let stock ← getProp p "stock_status"
  let stockText ← toStr host stock
  pure ⟨title, subtitle, descriptionText, price, note,
    if truthy host promo then some text else none, stockText⟩

/-- The address encoded in the QR code: `location.origin + location.pathname +
'?pid=' + encodeURIComponent(p.pid)`. -/
def qrUrl (host : Host Num) (p : JSValue Num) : Except JSError JSString := do
  let pid ← getProp p "pid"
  let pidText ← toStr host pid
  let pidEncoded ← encodeURIComponent pidText
  pure (host.origin ++ host.pathname ++ "?pid=" ++ pidEncoded)

/-- The address `loadProduct` requests for the identifier `pid`. -/
def productUrl (pid : String) : JSString :=
  API_BASE ++ "/products/" ++ percentEncode pid

/-- The function `loadProduct()`; `pid` is the result of `params.get('pid')`,
which `URLSearchParams` hands out as text without unpaired surrogates. -/
def loadProduct (host : Host Num) (pid : Option String) (page : Page) : Completion :=
  match pid with
  | none => ⟨page, none⟩
  | some pid =>
      if pid = "" then ⟨page, none⟩
      else
        match encodeURIComponent pid with
        | .error e => ⟨page, some e⟩
        | .ok pidEncoded =>
            let url := API_BASE ++ "/products/" ++ pidEncoded
            let page := { page with requests := page.requests ++ [url] }
            match host.fetch url with
            | .error e => ⟨page, some e⟩
            | .ok res =>
                if res.status ≠ 200 then
                  ⟨{ page with product := "<p>No encontrado</p>" }, none⟩
                else
                  let page := { page with bodyReads := page.bodyReads + 1 }
                  match res.json with
                  | .error e => ⟨page, some e⟩
                  | .ok p =>
                      match detailModel host p with
                      | .error e => ⟨page, some e⟩
                      | .ok detail =>
                          let page := { page with product := detail.render, qrcode := "" }
                          match qrUrl host p with
                          | .error e => ⟨page, some e⟩
                          | .ok url =>
                              ⟨{ page with qrCalls := page.qrCalls ++ [⟨url, 180, 180⟩] },
                                none⟩

/-! ## Shape of catalog records -/

/-- A promotion as the catalog sends it: an object whose fields are primitive. -/
def isPromo : JSValue Num → Bool
  | obj props => props.all (fun kv => kv.2.isPrimitive)
  | _ => false

/-- A product as the catalog sends it: an object whose `promo_applied` is absent
or a promotion and whose other fields are primitive (strings, numbers, booleans,
`null`). -/
def isProduct : JSValue Num → Bool
  | obj props => props.all (fun kv =>
      if kv.1 = "promo_applied" then kv.2.isAbsent || isPromo kv.2 else kv.2.isPrimitive)
  | _ => false

/-- A primitive value whose string conversion holds no unpaired surrogate, as a
product identifier is: `encodeURIComponent` accepts it. -/
def isScalarText : JSValue Num → Bool
  | str s => s.isWellFormed
  | arr _ => false
  | obj _ => false
  | _ => true

/-- A record whose `pid` is text. -/
def hasTextPid : JSValue Num → Bool
  | obj props => isScalarText (lookupProp props "pid")
  | _ => false

/-! ## A concrete host for evaluation -/

/-- Records used for evaluation: `p1` of scenario 1, `p2` of scenario 2. -/
def malbec : JSValue Nat :=
  obj [("pid", str "p1"), ("name", str "Malbec"), ("year", num 2020),
    ("winery", str "Catena"), ("varietal", str "Malbec"),
    ("price_list", num 1000), ("price_final", num 850), ("stock_status", str "in_stock"),
    ("promo_applied", obj [("type", str "percent"), ("value", num 15)])]

/-- Record of scenario 2. -/
def cabernet : JSValue Nat :=
  obj [("pid", str "p2"), ("name", str "Cabernet"),
    ("price_list", num 1200), ("price_final", num 1000), ("stock_status", str "in_stock"),
    ("promo_applied", obj [("type", str "two_for"), ("two_total", num 1000), ("unit", num 500)])]

/-- A host whose numbers are naturals printed in decimal, whose locale call
always throws (so `currency` takes its fallback), and whose catalog knows
`p1` and `p2`, lists both, and answers 404 otherwise. -/
def demoHost : Host Nat where
  numToString := Nat.repr
  numIsFalsy := fun n => n == 0
  toLocaleString := fun _ => none
  fetch := fun url =>
    if url = "/api/products/p1" then .ok ⟨200, .ok malbec⟩
    else if url = "/api/products/p2" then .ok ⟨200, .ok cabernet⟩
    else if url = "/api/products" then .ok ⟨200, .ok (arr [malbec, cabernet])⟩
    else .ok ⟨404, .ok (obj [("detail", str "Not found")])⟩
  origin := "https://wine.example"
  pathname := "/product.html"

/-- The same host with a working locale call on numbers. -/
def localeHost : Host Nat :=
  { demoHost with
    toLocaleString := fun v =>
      match v with
      | num n => some (JSString.ofString ("$ " ++ Nat.repr n ++ ",00"))
      | _ => none }

/-- The same host with a catalog that also answers the upper-case identifier
`P1` with the record whose `pid` is `p1`. -/
def aliasHost : Host Nat :=
  { demoHost with
    fetch := fun url =>
      if url = "/api/products/P1" then .ok ⟨200, .ok malbec⟩ else demoHost.fetch url }

/-! ## Auxiliary facts -/

section Aux

variable (host : Host Num)

theorem bind_ok {α β : Type} (a : α) (f : α → Except JSError β) :
    (Except.ok a >>= f) = f a := rfl

theorem bind_error {α β : Type} (e : JSError) (f : α → Except JSError β) :
    (Except.error e >>= f) = Except.error e := rfl

theorem map_ok {α β : Type} (a : α) (f : α → β) :
    (Except.ok a : Except JSError α).map f = Except.ok (f a) := rfl

theorem pure_eq_ok {α : Type} (a : α) : (pure a : Except JSError α) = Except.ok a := rfl

theorem JSString.units_append (a b : JSString) : (a ++ b).units = a.units ++ b.units := rfl

theorem JSString.append_assoc (a b c : JSString) : a ++ b ++ c = a ++ (b ++ c) :=
  match a, b, c with
  | ⟨x⟩, ⟨y⟩, ⟨z⟩ => congrArg JSString.mk (List.append_assoc x y z)

theorem JSString.append_empty (s : JSString) : s ++ "" = s :=
  match s with
  | ⟨x⟩ => congrArg JSString.mk (List.append_nil x)

theorem JSString.empty_append (s : JSString) : "" ++ s = s :=
  match s with
  | ⟨x⟩ => congrArg JSString.mk (List.nil_append x)

theorem percent_ne_two_for : JSString.ofString "percent" ≠ JSString.ofString "two_for" := by
  decide

/-- One step of the loop of `encodeURIComponent`. -/
theorem encodeUnits_cons (u : Nat) (rest : List Nat) :
    encodeUnits (u :: rest)
      = if isUriUnreserved u then (encodeUnits rest).map (fun out => u :: out)
        else if u < 0xD800 || 0xDFFF < u then
          (encodeUnits rest).map (fun out => percentEscape u ++ out)
        else if 0xDC00 ≤ u then .error .uriError
        else
          match rest with
          | [] => .error .uriError
          | l :: rest2 =>
              if 0xDC00 ≤ l && l ≤ 0xDFFF then
                (encodeUnits rest2).map (fun out =>
                  percentEscape (0x10000 + (u - 0xD800) * 0x400 + (l - 0xDC00)) ++ out)
              else .error .uriError := by
  cases rest <;> simp [encodeUnits]

/-- One step of the well-formedness check. -/
theorem wellFormedUnits_cons (u : Nat) (rest : List Nat) :
    JSString.wellFormedUnits (u :: rest)
      = if u < 0xD800 || 0xDFFF < u then JSString.wellFormedUnits rest
        else if 0xDC00 ≤ u then false
        else
          match rest with
          | [] => false
          | l :: rest2 => (0xDC00 ≤ l && l ≤ 0xDFFF) && JSString.wellFormedUnits rest2 := by
  cases rest <;> simp [JSString.wellFormedUnits]

/-- An unreserved code unit is an ASCII one. -/
theorem isUriUnreserved_lt {u : Nat} (h : isUriUnreserved u = true) : u < 127 := by
  simp only [isUriUnreserved, Bool.or_eq_true, Bool.and_eq_true, decide_eq_true_eq,
    beq_iff_eq] at h
  omega

/-- On the code units of a text `encodeURIComponent` never meets an unpaired
surrogate. -/
theorem encodeUnits_chars (cs : List Char) :
    encodeUnits (cs.flatMap JSString.utf16Units)
      = .ok (cs.flatMap (fun c =>
          if isUriUnreserved c.toNat then [c.toNat] else percentEscape c.toNat)) := by
  induction cs with
  | nil => rfl
  | cons c cs ih =>
      have hvalid : c.toNat < 0xD800 ∨ (0xDFFF < c.toNat ∧ c.toNat < 0x110000) := c.valid
      simp only [List.flatMap_cons]
      by_cases hbmp : c.toNat < 0x10000
      · by_cases hu : isUriUnreserved c.toNat = true
        · simp [JSString.utf16Units, hbmp, encodeUnits_cons, hu, ih, map_ok]
        · have hs : (decide (c.toNat < 0xD800) || decide (0xDFFF < c.toNat)) = true := by
            simp only [Bool.or_eq_true, decide_eq_true_eq]; omega
          simp only [JSString.utf16Units, hbmp, if_true, List.cons_append, List.nil_append,
            encodeUnits_cons, hu, hs, ih, map_ok, if_false, Bool.false_eq_true]
      · have hhi : isUriUnreserved (0xD800 + (c.toNat - 0x10000) / 0x400) = false := by
          cases h : isUriUnreserved (0xD800 + (c.toNat - 0x10000) / 0x400)
          · rfl
          · have := isUriUnreserved_lt h; omega
        have hc : isUriUnreserved c.toNat = false := by
          cases h : isUriUnreserved c.toNat
          · rfl
          · have := isUriUnreserved_lt h; omega
        have h1 : ¬ (0xD800 + (c.toNat - 0x10000) / 0x400 < 0xD800
            ∨ 0xDFFF < 0xD800 + (c.toNat - 0x10000) / 0x400) := by omega
        have h2 : ¬ (0xDC00 ≤ 0xD800 + (c.toNat - 0x10000) / 0x400) := by omega
        have h3 : 0xDC00 ≤ 0xDC00 + (c.toNat - 0x10000) % 0x400
            ∧ 0xDC00 + (c.toNat - 0x10000) % 0x400 ≤ 0xDFFF := by omega
        have h4 : 0x10000 + (0xD800 + (c.toNat - 0x10000) / 0x400 - 0xD800) * 0x400
            + (0xDC00 + (c.toNat - 0x10000) % 0x400 - 0xDC00) = c.toNat := by omega
        simp only [JSString.utf16Units, hbmp, if_false, List.cons_append, List.nil_append,
          encodeUnits_cons, hhi, hc, Bool.false_eq_true, Bool.or_eq_true, decide_eq_true_eq, h1, h2,
          Bool.and_eq_true, h3, and_self, if_true, h4, ih, map_ok]

/-- On a text `encodeURIComponent` returns, with each character kept or escaped. -/
theorem encodeURIComponent_ofString (s : String) :
    encodeURIComponent (JSString.ofString s) = .ok (percentEncode s) := by
  simp [encodeURIComponent, JSString.ofString, percentEncode, encodeUnits_chars, map_ok]

/-- On well-formed code units `encodeURIComponent` returns. -/
theorem encodeUnits_of_wellFormed (us : List Nat) (h : JSString.wellFormedUnits us = true) :
    ∃ out, encodeUnits us = .ok out := by
  induction us using encodeUnits.induct with
  | case1 => exact ⟨[], rfl⟩
  | case2 u rest hu ih =>
      have hlt := isUriUnreserved_lt hu
      have hs : (decide (u < 0xD800) || decide (0xDFFF < u)) = true := by
        simp only [Bool.or_eq_true, decide_eq_true_eq]; omega
      rw [wellFormedUnits_cons] at h
      simp only [hs, if_true] at h
      obtain ⟨out, hout⟩ := ih h
      exact ⟨u :: out, by rw [encodeUnits_cons]; simp [hu, hout, map_ok]⟩
  | case3 u rest hu hs ih =>
      rw [wellFormedUnits_cons] at h
      simp only [hs, if_true] at h
      obtain ⟨out, hout⟩ := ih h
      exact ⟨percentEscape u ++ out, by rw [encodeUnits_cons]; simp [hu, hout, map_ok, hs]⟩
  | case4 u rest hu hs hlow =>
      rw [wellFormedUnits_cons] at h
      simp [hs, hlow] at h
  | case5 u hu hs hlow =>
      rw [wellFormedUnits_cons] at h
      simp [hs, hlow] at h
  | case6 u hu hs hlow l rest hl ih =>
      rw [wellFormedUnits_cons] at h
      simp only [hs, hlow, hl, Bool.true_and, Bool.false_eq_true, if_false] at h
      obtain ⟨out, hout⟩ := ih h
      exact ⟨percentEscape (0x10000 + (u - 0xD800) * 0x400 + (l - 0xDC00)) ++ out, by
        rw [encodeUnits_cons]; simp only [hu, hs, hlow, hl, hout, map_ok, if_true, if_false,
          Bool.false_eq_true]⟩
  | case7 u hu hs hlow l rest hl =>
      rw [wellFormedUnits_cons] at h
      simp [hs, hlow, hl] at h

/-- A string that starts with a dollar sign is not empty. -/
theorem dollar_append_ne_empty (s : JSString) : "$" ++ s ≠ "" := by
  intro h
  have hlen := congrArg (fun x : JSString => x.units.length) h
  have hdollar : (JSString.ofString "$").units = [36] := rfl
  have hempty : (JSString.ofString "").units = [] := rfl
  simp [JSString.units_append, hdollar, hempty] at hlen

/-- A value whose property read succeeds with a string is an object, so truthy. -/
theorem truthy_of_getProp_str {v : JSValue Num} {key s : JSString}
    (h : getProp v key = .ok (.str s)) : truthy host v = true := by
  cases v <;> simp_all [getProp, truthy]

/-- String conversion of a primitive value succeeds. -/
theorem toStr_of_isPrimitive {v : JSValue Num} (h : v.isPrimitive = true) :
    ∃ s, toStr host v = .ok s := by
  cases v <;> simp_all [toStr, isPrimitive]

/-- The function `currency` returns on every primitive value. -/
theorem currency_of_isPrimitive {v : JSValue Num} (h : v.isPrimitive = true) :
    ∃ s, currency host v = .ok s := by
  unfold currency
  cases hloc : host.toLocaleString v with
  | some s => exact ⟨s, rfl⟩
  | none =>
      obtain ⟨raw, hraw⟩ := toStr_of_isPrimitive host h
      exact ⟨"$" ++ raw, by simp [hraw, map_ok]⟩

/-- A property read from an object whose properties all satisfy `f` is missing
or satisfies `f`. -/
theorem lookupProp_all (f : JSString × JSValue Num → Bool)
    (props : List (JSString × JSValue Num))
    (h : props.all f = true) (key : JSString) :
    lookupProp props key = undefined ∨ f (key, lookupProp props key) = true := by
  induction props with
  | nil => exact Or.inl rfl
  | cons kv rest ih =>
      obtain ⟨k, v⟩ := kv
      simp only [List.all_cons, Bool.and_eq_true] at h
      by_cases hk : k = key
      · subst hk
        right
        simpa [lookupProp] using h.1
      · simpa [lookupProp, hk] using ih h.2

/-- Every field of a product other than `promo_applied` is primitive. -/
theorem isPrimitive_of_isProduct {props : List (JSString × JSValue Num)}
    (h : isProduct (obj props) = true) (key : JSString) (hk : key ≠ "promo_applied") :
    (lookupProp props key).isPrimitive = true := by
  rcases lookupProp_all _ props h key with hu | hf
  · rw [hu]; rfl
  · simpa [hk] using hf

/-- The field `promo_applied` of a product is absent or a promotion. -/
theorem promo_of_isProduct {props : List (JSString × JSValue Num)}
    (h : isProduct (obj props) = true) :
    (lookupProp props "promo_applied").isAbsent = true
      ∨ isPromo (lookupProp props "promo_applied") = true := by
  rcases lookupProp_all _ props h "promo_applied" with hu | hf
  · rw [hu]; exact Or.inl rfl
  · simpa using hf

/-- A promotion is truthy and not absent. -/
theorem truthy_of_isPromo {promo : JSValue Num} (h : isPromo promo = true) :
    truthy host promo = true ∧ promo.isAbsent = false := by
  cases promo <;> simp_all [isPromo, truthy, isAbsent]

/-- An absent value is falsy. -/
theorem truthy_of_isAbsent {v : JSValue Num} (h : v.isAbsent = true) :
    truthy host v = false := by
  cases v <;> simp_all [truthy, isAbsent]

/-- The annotation of a promotion is computed without an exception. -/
theorem promoText_of_isPromo {promo : JSValue Num} (h : isPromo promo = true) :
    ∃ text, promoText host promo = .ok text := by
  cases promo with
  | obj props =>
      have hall : props.all (fun kv => kv.2.isPrimitive) = true := h
      have hprim : ∀ key, (lookupProp props key).isPrimitive = true := by
        intro key
        rcases lookupProp_all _ props hall key with hu | hf
        · rw [hu]; rfl
        · exact hf
      obtain ⟨valueText, hvalue⟩ := toStr_of_isPrimitive host (hprim "value")
      obtain ⟨totalText, htotal⟩ := currency_of_isPrimitive host (hprim "two_total")
      obtain ⟨unitText, hunit⟩ := currency_of_isPrimitive host (hprim "unit")
      by_cases h1 : strictEqStr (lookupProp props "type") "percent" = true <;>
        by_cases h2 : strictEqStr (lookupProp props "type") "two_for" = true <;>
        simp [promoText, truthy, getProp, h1, h2, hvalue, htotal, hunit, bind_ok, pure_eq_ok]
  | _ => simp [isPromo] at h

/-- The title of a product is computed without an exception and starts with the
name. -/
theorem titleLine_of_isProduct {props : List (JSString × JSValue Num)}
    (h : isProduct (obj props) = true) :
    ∃ title, titleLine host (obj props) = .ok title
      ∧ ∀ name, lookupProp props "name" = str name → ∃ rest, title = name ++ rest := by
  obtain ⟨nameText, hname⟩ :=
    toStr_of_isPrimitive host (isPrimitive_of_isProduct h "name" (by decide))
  obtain ⟨yearText, hyear⟩ :=
    toStr_of_isPrimitive host (isPrimitive_of_isProduct h "year" (by decide))
  by_cases hy : truthy host (lookupProp props "year") = true
  · refine ⟨nameText ++ " " ++ ("(" ++ yearText ++ ")"), ?_, ?_⟩
    · simp [titleLine, getProp, hname, hyear, hy, bind_ok, map_ok, pure_eq_ok]
    · intro name hn
      rw [hn] at hname
      simp [toStr] at hname
      exact ⟨" " ++ ("(" ++ yearText ++ ")"), by rw [← hname, JSString.append_assoc]⟩
  · refine ⟨nameText ++ " " ++ "", ?_, ?_⟩
    · simp [titleLine, getProp, hname, hy, bind_ok, pure_eq_ok]
    · intro name hn
      rw [hn] at hname
      simp [toStr] at hname
      exact ⟨" " ++ "", by rw [← hname, JSString.append_assoc]⟩

/-- The subtitle of a product is computed without an exception. -/
theorem subtitleLine_of_isProduct {props : List (JSString × JSValue Num)}
    (h : isProduct (obj props) = true) :
    ∃ subtitle, subtitleLine host (obj props) = .ok subtitle := by
  have hw := isPrimitive_of_isProduct h "winery" (by decide)
  obtain ⟨wineryText, hwinery⟩ := toStr_of_isPrimitive host hw
  obtain ⟨varietalText, hvarietal⟩ :=
    toStr_of_isPrimitive host (isPrimitive_of_isProduct h "varietal" (by decide))
  by_cases h1 : truthy host (lookupProp props "winery") = true <;>
    by_cases h2 : truthy host (lookupProp props "varietal") = true <;>
    simp [subtitleLine, getProp, h1, h2, hwinery, hvarietal, toStr, bind_ok, map_ok,
      pure_eq_ok]

/-- The detail model of a product is built without an exception; its badge is
the annotation when `promo_applied` is present and missing otherwise, and its
title starts with the name. -/
theorem detailModel_of_isProduct {props : List (JSString × JSValue Num)}
    (h : isProduct (obj props) = true) :
    ∃ detail text, promoText host (lookupProp props "promo_applied") = .ok text
      ∧ detailModel host (obj props) = .ok detail
      ∧ detail.badge = (if (lookupProp props "promo_applied").isAbsent then none else some text)
      ∧ ∀ name, lookupProp props "name" = str name → ∃ rest, detail.title = name ++ rest := by
  obtain ⟨title, htitle, hstarts⟩ := titleLine_of_isProduct host h
  obtain ⟨subtitle, hsubtitle⟩ := subtitleLine_of_isProduct host h
  obtain ⟨descriptionText, hdescription⟩ : ∃ text,
      toStr host (if truthy host (lookupProp props "description") = true
        then lookupProp props "description" else str "") = .ok text := by
    by_cases hd : truthy host (lookupProp props "description") = true
    · simpa [hd] using
        toStr_of_isPrimitive host (isPrimitive_of_isProduct h "description" (by decide))
    · exact ⟨"", by simp [hd, toStr]⟩
  obtain ⟨price, hprice⟩ :=
    currency_of_isPrimitive host (isPrimitive_of_isProduct h "price_final" (by decide))
  obtain ⟨note, hnote⟩ :=
    currency_of_isPrimitive host (isPrimitive_of_isProduct h "price_list" (by decide))
  obtain ⟨stockText, hstock⟩ :=
    toStr_of_isPrimitive host (isPrimitive_of_isProduct h "stock_status" (by decide))
  rcases promo_of_isProduct h with habsent | hpromo
  · have htext : promoText host (lookupProp props "promo_applied") = .ok "" := by
      simp [promoText, truthy_of_isAbsent host habsent, pure_eq_ok]
    refine ⟨⟨title, subtitle, descriptionText, price, note, none, stockText⟩, "", htext, ?_, ?_,
      hstarts⟩
    · simp [detailModel, getProp, htext, htitle, hsubtitle, hdescription, hprice, hnote, hstock,
        truthy_of_isAbsent host habsent, bind_ok, pure_eq_ok]
    · simp [habsent]
  · obtain ⟨text, htext⟩ := promoText_of_isPromo host hpromo
    obtain ⟨htruthy, hpresent⟩ := truthy_of_isPromo host hpromo
    refine ⟨⟨title, subtitle, descriptionText, price, note, some text, stockText⟩, text, htext,
      ?_, ?_, hstarts⟩
    · simp [detailModel, getProp, htext, htitle, hsubtitle, hdescription, hprice, hnote, hstock,
        htruthy, bind_ok, pure_eq_ok]
    · simp [hpresent]

/-- A value that is text can be converted and then encoded. -/
theorem encode_of_isScalarText {v : JSValue Num} (h : isScalarText v = true) :
    ∃ text encoded, toStr host v = .ok text ∧ encodeURIComponent text = .ok encoded := by
  cases v with
  | undefined => exact ⟨_, _, rfl, encodeURIComponent_ofString "undefined"⟩
  | null => exact ⟨_, _, rfl, encodeURIComponent_ofString "null"⟩
  | bool b =>
      cases b
      · exact ⟨_, _, rfl, encodeURIComponent_ofString "false"⟩
      · exact ⟨_, _, rfl, encodeURIComponent_ofString "true"⟩
  | num n => exact ⟨_, _, rfl, encodeURIComponent_ofString (host.numToString n)⟩
  | str s =>
      obtain ⟨out, hout⟩ := encodeUnits_of_wellFormed s.units h
      exact ⟨s, ⟨out⟩, rfl, by simp [encodeURIComponent, hout, map_ok]⟩
  | arr items => simp [isScalarText] at h
  | obj props => simp [isScalarText] at h

/-- The QR address of a product whose identifier is text is computed without an
exception, from the `pid` of the record. -/
theorem qrUrl_of_hasTextPid {props : List (JSString × JSValue Num)}
    (h : hasTextPid (obj props) = true) :
    ∃ pidText pidEncoded, toStr host (lookupProp props "pid") = .ok pidText
      ∧ encodeURIComponent pidText = .ok pidEncoded
      ∧ qrUrl host (obj props)
        = .ok (host.origin ++ host.pathname ++ "?pid=" ++ pidEncoded) := by
  obtain ⟨pidText, pidEncoded, hpid, henc⟩ := encode_of_isScalarText host h
  exact ⟨pidText, pidEncoded, hpid, henc,
    by simp [qrUrl, getProp, hpid, henc, bind_ok, pure_eq_ok]⟩

/-- The card model of a product whose identifier is text is built without an
exception; its promo flag is set exactly when `promo_applied` is present, and
its markup holds the promo span exactly then. -/
theorem cardModel_of_isProduct {p : JSValue Num} (h : isProduct p = true)
    (hpid : hasTextPid p = true) :
    ∃ card promo, getProp p "promo_applied" = .ok promo ∧ cardModel host p = .ok card
      ∧ card.promo = !promo.isAbsent
      ∧ card.render
        = "\n      <h3>" ++ card.title ++ "</h3>\n      <div>" ++ card.subtitle
          ++ "</div>\n      <div class=\"price\">" ++ card.price ++ "\n        "
          ++ (if promo.isAbsent then ("" : JSString) else "<span class=\"badge\">promo</span>")
          ++ "\n      </div>\n      <div class=\"note\">Lista: " ++ card.note
          ++ "</div>\n      <a href=\"./product.html?pid=" ++ card.pid
          ++ "\">Ver ficha</a>\n    " := by
  cases p with
  | obj props =>
      obtain ⟨title, htitle, -⟩ := titleLine_of_isProduct host h
      obtain ⟨subtitle, hsubtitle⟩ := subtitleLine_of_isProduct host h
      obtain ⟨price, hprice⟩ :=
        currency_of_isPrimitive host (isPrimitive_of_isProduct h "price_final" (by decide))
      obtain ⟨note, hnote⟩ :=
        currency_of_isPrimitive host (isPrimitive_of_isProduct h "price_list" (by decide))
      obtain ⟨pidText, pidEncoded, hpidText, hpidEncoded⟩ := encode_of_isScalarText host hpid
      have hflag : truthy host (lookupProp props "promo_applied")
          = !(lookupProp props "promo_applied").isAbsent := by
        rcases promo_of_isProduct h with habsent | hpromo
        · simp [truthy_of_isAbsent host habsent, habsent]
        · obtain ⟨htruthy, hpresent⟩ := truthy_of_isPromo host hpromo
          simp [htruthy, hpresent]
      refine ⟨⟨title, subtitle, price, truthy host (lookupProp props "promo_applied"), note,
        pidEncoded⟩, lookupProp props "promo_applied", rfl, ?_, hflag, ?_⟩
      · simp [cardModel, getProp, htitle, hsubtitle, hprice, hnote, hpidText, hpidEncoded,
          bind_ok, pure_eq_ok]
      · cases habsent : (lookupProp props "promo_applied").isAbsent <;>
          simp [Card.render, hflag, habsent]
  | _ => simp [isProduct] at h

/-- The loop over an array of products appends one card per product, in order,
and does not throw. -/
theorem appendCards_of_isProduct (items : List (JSValue Num)) (page : Page)
    (h : ∀ p ∈ items, isProduct p = true ∧ hasTextPid p = true) :
    ∃ cards : List Card,
      List.Forall₂ (fun p card => cardModel host p = .ok card
        ∧ ∃ promo, getProp p "promo_applied" = .ok promo ∧ card.promo = !promo.isAbsent
          ∧ card.render
            = "\n      <h3>" ++ card.title ++ "</h3>\n      <div>" ++ card.subtitle
              ++ "</div>\n      <div class=\"price\">" ++ card.price ++ "\n        "
              ++ (if promo.isAbsent then ("" : JSString)
                  else "<span class=\"badge\">promo</span>")
              ++ "\n      </div>\n      <div class=\"note\">Lista: " ++ card.note
              ++ "</div>\n      <a href=\"./product.html?pid=" ++ card.pid
              ++ "\">Ver ficha</a>\n    ")
        items cards
      ∧ appendCards host items page
        = ⟨{ page with results := page.results ++ cards.map (fun c => ⟨"card", c.render⟩) },
            none⟩ := by
  induction items generalizing page with
  | nil => exact ⟨[], List.Forall₂.nil, by simp [appendCards]⟩
  | cons p rest ih =>
      obtain ⟨card, promo, hpromo, hcard, hflag, hrender⟩ :=
        cardModel_of_isProduct host (h p (List.mem_cons_self p rest)).1
          (h p (List.mem_cons_self p rest)).2
      obtain ⟨cards, hall, hrun⟩ :=
        ih { page with results := page.results ++ [⟨"card", card.render⟩] }
          (fun q hq => h q (List.mem_cons_of_mem p hq))
      refine ⟨card :: cards, List.Forall₂.cons ⟨hcard, promo, hpromo, hflag, hrender⟩ hall, ?_⟩
      simp [appendCards, hcard, hrun]

end Aux

/-! ## Claims -/

/-- C1: a promotion whose `type` is `'percent'` and whose `value` is the number
`v` gets the annotation `(-` followed by `v` printed as a plain number (no
currency formatting) followed by `% aplicado)`. -/
theorem promoText_percent (host : Host Num) (promo : JSValue Num) (v : Num)
    (htype : getProp promo "type" = .ok (.str "percent"))
    (hvalue : getProp promo "value" = .ok (.num v)) :
    promoText host promo
      = .ok ("(-" ++ JSString.ofString (host.numToString v) ++ "% aplicado)") := by
  have htruthy := truthy_of_getProp_str host htype
  simp [promoText, htruthy, htype, hvalue, strictEqStr, toStr, bind_ok, pure_eq_ok,
    percent_ne_two_for]

/-- Witness of C1: for `value` 15 the annotation is `(-15% aplicado)`. -/
theorem promoText_percent_witness :
    promoText demoHost (obj [("type", str "percent"), ("value", num 15)])
      = .ok "(-15% aplicado)" :=
  promoText_percent demoHost (obj [("type", str "percent"), ("value", num 15)]) 15 rfl rfl

/-- C2: a promotion whose `type` is `'two_for'` with numeric `two_total` and
`unit` gets the annotation `(2x por `, `currency(two_total)`, ` → `,
`currency(unit)`, ` c/u)`, and both `currency` calls return. -/
theorem promoText_two_for (host : Host Num) (promo : JSValue Num) (total unit : Num)
    (htype : getProp promo "type" = .ok (.str "two_for"))
    (htotal : getProp promo "two_total" = .ok (.num total))
    (hunit : getProp promo "unit" = .ok (.num unit)) :
    ∃ a b, currency host (.num total) = .ok a ∧ currency host (.num unit) = .ok b
      ∧ promoText host promo = .ok ("(2x por " ++ a ++ " → " ++ b ++ " c/u)") := by
  have htruthy := truthy_of_getProp_str host htype
  obtain ⟨a, ha⟩ := currency_of_isPrimitive host (v := .num total) rfl
  obtain ⟨b, hb⟩ := currency_of_isPrimitive host (v := .num unit) rfl
  refine ⟨a, b, ha, hb, ?_⟩
  simp [promoText, htruthy, htype, htotal, hunit, ha, hb, strictEqStr, bind_ok, pure_eq_ok,
    percent_ne_two_for.symm]

/-- Witness of C2: for `two_total` 1000 and `unit` 500 the annotation holds both
formatted values, in that order. -/
theorem promoText_two_for_witness :
    ∃ a b, currency demoHost (.num 1000) = .ok a ∧ currency demoHost (.num 500) = .ok b
      ∧ promoText demoHost (obj [("type", str "two_for"), ("two_total", num 1000),
          ("unit", num 500)]) = .ok ("(2x por " ++ a ++ " → " ++ b ++ " c/u)") :=
  promoText_two_for demoHost
    (obj [("type", str "two_for"), ("two_total", num 1000), ("unit", num 500)]) 1000 500
    rfl rfl rfl

/-- C3: for an absent promotion (`undefined` or `null`) and for every present
promotion whose `type` is neither `'percent'` nor `'two_for'`, `promoText`
returns (it does not throw) and is the empty string. -/
theorem promoText_unknown (host : Host Num) (promo : JSValue Num)
    (h : promo.isAbsent = true ∨ ∃ tag, getProp promo "type" = .ok tag
      ∧ strictEqStr tag "percent" = false ∧ strictEqStr tag "two_for" = false) :
    promoText host promo = .ok "" := by
  rcases h with h | ⟨tag, htag, e1, e2⟩
  · cases promo <;> simp_all [isAbsent, promoText, truthy, pure_eq_ok]
  · by_cases htruthy : truthy host promo = true
    · simp [promoText, htruthy, htag, e1, e2, bind_ok, pure_eq_ok]
    · simp [promoText, htruthy, pure_eq_ok]

/-- Witness of C3: an absent promotion and one of an unknown kind both give the
empty annotation. -/
theorem promoText_unknown_witness :
    promoText demoHost (undefined : JSValue Nat) = .ok ""
      ∧ promoText demoHost (obj [("type", str "three_for"), ("value", num 3)]) = .ok "" :=
  ⟨promoText_unknown demoHost undefined (Or.inl rfl),
   promoText_unknown demoHost (obj [("type", str "three_for"), ("value", num 3)])
     (Or.inr ⟨_, rfl, rfl, rfl⟩)⟩

/-- C8: on every numeric amount `currency` returns (it never throws): the dollar
sign followed by the plain number when the locale call throws, the locale
rendering otherwise; the result is a non-empty string whenever the locale
renderings are. -/
theorem currency_never_fails (host : Host Num) (n : Num) :
    (host.toLocaleString (.num n) = none →
        currency host (.num n) = .ok ("$" ++ JSString.ofString (host.numToString n)))
      ∧ (∀ s, host.toLocaleString (.num n) = some s → currency host (.num n) = .ok s)
      ∧ ((∀ s, host.toLocaleString (.num n) = some s → s ≠ "") →
          ∃ s, currency host (.num n) = .ok s ∧ s ≠ "") := by
  refine ⟨fun h => ?_, fun s h => ?_, fun hne => ?_⟩
  · simp [currency, h, toStr, map_ok]
  · simp [currency, h]
  · cases hloc : host.toLocaleString (.num n) with
    | some s => exact ⟨s, by simp [currency, hloc], hne s hloc⟩
    | none =>
        exact ⟨"$" ++ JSString.ofString (host.numToString n),
          by simp [currency, hloc, toStr, map_ok],
          dollar_append_ne_empty _⟩

/-- Witness of C8: 850 with the locale call throwing gives `$850`, and with a
working locale call gives its non-empty rendering. -/
theorem currency_never_fails_witness :
    currency demoHost (.num 850) = .ok "$850"
      ∧ currency localeHost (.num 850) = .ok "$ 850,00" :=
  ⟨(currency_never_fails demoHost 850).1 rfl, (currency_never_fails localeHost 850).2.1 _ rfl⟩

/-- Counterexample to C9 as stated: with only `winery` present the subtitle is
the winery followed by a space, not exactly the winery. -/
theorem subtitleLine_only_winery_trailing_space :
    subtitleLine demoHost (obj [("name", str "Malbec"), ("winery", str "Catena")])
        = .ok "Catena "
      ∧ ("Catena " : JSString) ≠ "Catena" :=
  ⟨rfl, by decide⟩

/-- C9, amended: the subtitle is the winery, a space, the separator `· ` and the
varietal when both are present; the winery followed by one space (no separator)
when only the winery is present; one space when neither is present. -/
theorem subtitleLine_cases (host : Host Num) (props : List (JSString × JSValue Num))
    (w v : JSString) (hw : w ≠ "") (hv : v ≠ "") :
    (lookupProp props "winery" = str w → lookupProp props "varietal" = str v →
        subtitleLine host (obj props) = .ok (w ++ " · " ++ v))
      ∧ (lookupProp props "winery" = str w →
          (lookupProp props "varietal").isAbsent = true →
          subtitleLine host (obj props) = .ok (w ++ " "))
      ∧ ((lookupProp props "winery").isAbsent = true →
          (lookupProp props "varietal").isAbsent = true →
          subtitleLine host (obj props) = .ok " ") := by
  refine ⟨fun h1 h2 => ?_, fun h1 h2 => ?_, fun h1 h2 => ?_⟩
  · simp [subtitleLine, getProp, h1, h2, truthy, hw, hv, toStr, bind_ok, map_ok, pure_eq_ok,
      JSString.append_assoc]
    rfl
  · cases hvar : lookupProp props "varietal" <;>
      simp_all [subtitleLine, getProp, truthy, toStr, bind_ok, map_ok, pure_eq_ok, isAbsent,
        JSString.append_empty, JSString.empty_append]
  · cases hvar : lookupProp props "varietal" <;> cases hwin : lookupProp props "winery" <;>
      simp_all [subtitleLine, getProp, truthy, toStr, bind_ok, map_ok, pure_eq_ok, isAbsent,
        JSString.append_empty, JSString.empty_append]

/-- Witness of the amended C9 on three records. -/
theorem subtitleLine_cases_witness :
    subtitleLine demoHost (obj [("winery", str "Catena"), ("varietal", str "Malbec")])
        = .ok "Catena · Malbec"
      ∧ subtitleLine demoHost (obj [("winery", str "Catena"), ("varietal", null)])
        = .ok "Catena "
      ∧ subtitleLine demoHost (obj [("name", str "Cabernet")]) = .ok " " :=
  ⟨(subtitleLine_cases demoHost [("winery", str "Catena"), ("varietal", str "Malbec")]
      "Catena" "Malbec" (by decide) (by decide)).1 rfl rfl,
   (subtitleLine_cases demoHost [("winery", str "Catena"), ("varietal", null)]
      "Catena" "Malbec" (by decide) (by decide)).2.1 rfl rfl,
   (subtitleLine_cases demoHost [("name", str "Cabernet")]
      "Catena" "Malbec" (by decide) (by decide)).2.2 rfl rfl⟩

/-- Counterexample to C10 as stated: a `pid` parameter that is present with an
empty value (`?pid=`) triggers no lookup. -/
theorem loadProduct_empty_pid_no_lookup :
    (some "" : Option String).isSome = true
      ∧ loadProduct demoHost (some "") Page.blank = ⟨Page.blank, none⟩
      ∧ (loadProduct demoHost (some "") Page.blank).page.requests = [] :=
  ⟨rfl, rfl, rfl⟩

/-- C10, amended: when `pid` is absent or empty, `loadProduct` requests nothing,
builds no QR code and leaves the page as it was; when `pid` is present and not
empty, it sends exactly one request, for that product. -/
theorem loadProduct_lookup_iff_nonempty (host : Host Num) (pid : Option String) (page : Page) :
    ((pid = none ∨ pid = some "") → loadProduct host pid page = ⟨page, none⟩)
      ∧ (∀ s, pid = some s → s ≠ "" →
          (loadProduct host pid page).page.requests = page.requests ++ [productUrl s]) := by
  refine ⟨fun h => ?_, fun s hs hne => ?_⟩
  · rcases h with h | h <;> subst h <;> simp [loadProduct]
  · subst hs
    unfold loadProduct
    simp only [hne, if_false, encodeURIComponent_ofString]
    repeat (first | rfl | split)

/-- Witness of the amended C10: no `pid`, an empty `pid`, and the `pid` of a
product. -/
theorem loadProduct_lookup_iff_nonempty_witness :
    loadProduct demoHost none Page.blank = ⟨Page.blank, none⟩
      ∧ loadProduct demoHost (some "") Page.blank = ⟨Page.blank, none⟩
      ∧ (loadProduct demoHost (some "p1") Page.blank).page.requests = ["/api/products/p1"] :=
  ⟨(loadProduct_lookup_iff_nonempty demoHost none Page.blank).1 (Or.inl rfl),
   (loadProduct_lookup_iff_nonempty demoHost (some "") Page.blank).1 (Or.inr rfl),
   (loadProduct_lookup_iff_nonempty demoHost (some "p1") Page.blank).2 "p1" rfl (by decide)⟩

/-- C7, the code at the failing input: the page was opened with `pid=P1`, the
catalog answered 200 with the record whose `pid` is `p1`, and the QR code holds
the address with `p1` (the record's field), not with `P1` (the query
parameter). The size is 180 by 180. -/
theorem loadProduct_qr_uses_record_pid :
    (loadProduct aliasHost (some "P1") Page.blank).page.qrCalls
        = [⟨"https://wine.example/product.html?pid=p1", 180, 180⟩]
      ∧ (encodeURIComponent "P1").map
          (fun encoded => aliasHost.origin ++ aliasHost.pathname ++ "?pid=" ++ encoded)
        = .ok "https://wine.example/product.html?pid=P1"
      ∧ ("https://wine.example/product.html?pid=p1" : JSString)
        ≠ "https://wine.example/product.html?pid=P1" :=
  ⟨rfl, rfl, by decide⟩

/-- C4: when the lookup answers 200 with a product, the detail model placed in
`#product` has a badge exactly when `promo_applied` is present; the badge text
is then the annotation `promoText` of `promo_applied`, and when `promo_applied`
is absent the badge hole of the markup is empty. -/
theorem loadProduct_badge (host : Host Num) (pid : String) (page : Page)
    (res : Response Num) (props : List (JSString × JSValue Num))
    (hpid : pid ≠ "") (hfetch : host.fetch (productUrl pid) = .ok res)
    (hstatus : res.status = 200) (hjson : res.json = .ok (obj props))
    (hproduct : isProduct (obj props) = true) :
    ∃ detail text, detailModel host (obj props) = .ok detail
      ∧ (loadProduct host (some pid) page).page.product = detail.render
      ∧ promoText host (lookupProp props "promo_applied") = .ok text
      ∧ detail.badge
        = (if (lookupProp props "promo_applied").isAbsent then none else some text)
      ∧ detail.render
        = "\n    <h2>" ++ detail.title ++ "</h2>\n    <div>" ++ detail.subtitle
          ++ "</div>\n    <p>" ++ detail.description ++ "</p>\n    <div class=\"price\">"
          ++ detail.price ++ " <span class=\"note\">Lista: " ++ detail.note
          ++ "</span></div>\n    "
          ++ (if (lookupProp props "promo_applied").isAbsent then ("" : JSString)
              else "<div class=\"badge\">" ++ text ++ "</div>")
          ++ "\n    <div>Estado: " ++ detail.stock ++ "</div>\n  " := by
  obtain ⟨detail, text, htext, hdetail, hbadge, -⟩ := detailModel_of_isProduct host hproduct
  refine ⟨detail, text, hdetail, ?_, htext, hbadge, ?_⟩
  · unfold productUrl at hfetch
    unfold loadProduct
    simp only [hpid, if_false, encodeURIComponent_ofString, hfetch, hstatus, hjson, hdetail,
      ne_eq, not_true_eq_false]
    split <;> rfl
  · cases habsent : (lookupProp props "promo_applied").isAbsent <;>
      simp [Detail.render, hbadge, habsent]

/-- Witness of C4: record `p1` carries a promotion and gets the badge
`(-15% aplicado)`. -/
theorem loadProduct_badge_witness :
    ∃ detail text, detailModel demoHost malbec = .ok detail
      ∧ (loadProduct demoHost (some "p1") Page.blank).page.product = detail.render
      ∧ promoText demoHost (obj [("type", str "percent"), ("value", num 15)]) = .ok text
      ∧ detail.badge = some text
      ∧ detail.render
        = "\n    <h2>" ++ detail.title ++ "</h2>\n    <div>" ++ detail.subtitle
          ++ "</div>\n    <p>" ++ detail.description ++ "</p>\n    <div class=\"price\">"
          ++ detail.price ++ " <span class=\"note\">Lista: " ++ detail.note
          ++ "</span></div>\n    "
          ++ (("<div class=\"badge\">" : JSString) ++ text ++ "</div>")
          ++ "\n    <div>Estado: " ++ detail.stock ++ "</div>\n  " :=
  loadProduct_badge demoHost "p1" Page.blank ⟨200, .ok malbec⟩ _ (by decide) rfl rfl rfl rfl

/-- C5: when the listing answers with an array of N products, `searchProducts`
replaces the children of `#results` by exactly N `div.card` elements, the i-th
one rendered from the model of the i-th product (same order, none dropped or
repeated, N = 0 included), and the price line of a card holds the promo span
exactly when the `promo_applied` of its product is present. -/
theorem searchProducts_cards (host : Host Num) (qValue : JSString) (page : Page)
    (url : JSString) (res : Response Num) (items : List (JSValue Num))
    (hurl : searchUrl (jsTrim qValue) = .ok url)
    (hfetch : host.fetch url = .ok res)
    (hjson : res.json = .ok (arr items))
    (hitems : ∀ p ∈ items, isProduct p = true ∧ hasTextPid p = true) :
    ∃ cards : List Card,
      cards.length = items.length
      ∧ List.Forall₂ (fun p card => cardModel host p = .ok card
          ∧ ∃ promo, getProp p "promo_applied" = .ok promo ∧ card.promo = !promo.isAbsent
            ∧ card.render
              = "\n      <h3>" ++ card.title ++ "</h3>\n      <div>" ++ card.subtitle
                ++ "</div>\n      <div class=\"price\">" ++ card.price ++ "\n        "
                ++ (if promo.isAbsent then ("" : JSString)
                    else "<span class=\"badge\">promo</span>")
                ++ "\n      </div>\n      <div class=\"note\">Lista: " ++ card.note
                ++ "</div>\n      <a href=\"./product.html?pid=" ++ card.pid
                ++ "\">Ver ficha</a>\n    ")
          items cards
      ∧ searchProducts host qValue page
        = ⟨{ page with
              requests := page.requests ++ [url]
              bodyReads := page.bodyReads + 1
              results := cards.map (fun c => ⟨"card", c.render⟩) }, none⟩ := by
  obtain ⟨cards, hall, hrun⟩ := appendCards_of_isProduct host items
    { page with
      requests := page.requests ++ [url]
      bodyReads := page.bodyReads + 1
      results := [] } hitems
  refine ⟨cards, hall.length_eq.symm, hall, ?_⟩
  simp only [searchProducts, hurl, hfetch, hjson, hrun, List.nil_append]

/-- Witness of C5: the unfiltered listing of the two sample records. -/
theorem searchProducts_cards_witness :
    ∃ cards : List Card,
      cards.length = 2
      ∧ List.Forall₂ (fun p card => cardModel demoHost p = .ok card
          ∧ ∃ promo, getProp p "promo_applied" = .ok promo ∧ card.promo = !promo.isAbsent
            ∧ card.render
              = "\n      <h3>" ++ card.title ++ "</h3>\n      <div>" ++ card.subtitle
                ++ "</div>\n      <div class=\"price\">" ++ card.price ++ "\n        "
                ++ (if promo.isAbsent then ("" : JSString)
                    else "<span class=\"badge\">promo</span>")
                ++ "\n      </div>\n      <div class=\"note\">Lista: " ++ card.note
                ++ "</div>\n      <a href=\"./product.html?pid=" ++ card.pid
                ++ "\">Ver ficha</a>\n    ")
          [malbec, cabernet] cards
      ∧ searchProducts demoHost " " Page.blank
        = ⟨{ Page.blank with
              requests := Page.blank.requests ++ [("/api/products" : JSString)]
              bodyReads := Page.blank.bodyReads + 1
              results := cards.map (fun c => ⟨"card", c.render⟩) }, none⟩ :=
  searchProducts_cards demoHost " " Page.blank "/api/products"
    ⟨200, .ok (arr [malbec, cabernet])⟩ [malbec, cabernet] rfl rfl rfl
    (by intro p hp; simp only [List.mem_cons, List.mem_singleton, List.not_mem_nil,
          or_false] at hp; rcases hp with rfl | rfl <;> exact ⟨rfl, rfl⟩)

/-- C6: for a `pid` that reaches the lookup, the status alone decides the
outcome. A status other than 200 leaves `<p>No encontrado</p>` in `#product`,
with no `res.json()` call and no QR code (the rest of the page is untouched). A
status of 200 with a product puts the detail markup in `#product`, whose `h2`
title starts with the product name, and, the `pid` of the record being text,
builds one QR code. -/
theorem loadProduct_outcome (host : Host Num) (pid : String) (page : Page)
    (res : Response Num) (hpid : pid ≠ "") (hfetch : host.fetch (productUrl pid) = .ok res) :
    (res.status ≠ 200 →
        loadProduct host (some pid) page
          = ⟨{ page with
                requests := page.requests ++ [productUrl pid]
                product := "<p>No encontrado</p>" }, none⟩)
      ∧ (res.status = 200 → ∀ props name, res.json = .ok (obj props) →
          isProduct (obj props) = true → lookupProp props "name" = str name →
          ∃ detail rest, detailModel host (obj props) = .ok detail
            ∧ detail.title = name ++ rest
            ∧ detail.render
              = "\n    <h2>" ++ (name ++ rest) ++ "</h2>\n    <div>" ++ detail.subtitle
                ++ "</div>\n    <p>" ++ detail.description
                ++ "</p>\n    <div class=\"price\">" ++ detail.price
                ++ " <span class=\"note\">Lista: " ++ detail.note ++ "</span></div>\n    "
                ++ (match detail.badge with
                    | some text => ("<div class=\"badge\">" : JSString) ++ text ++ "</div>"
                    | none => "")
                ++ "\n    <div>Estado: " ++ detail.stock ++ "</div>\n  "
            ∧ (loadProduct host (some pid) page).page.product = detail.render
            ∧ (loadProduct host (some pid) page).page.bodyReads = page.bodyReads + 1
            ∧ (hasTextPid (obj props) = true →
                ∃ url, loadProduct host (some pid) page
                  = ⟨{ page with
                        requests := page.requests ++ [productUrl pid]
                        bodyReads := page.bodyReads + 1
                        product := detail.render
                        qrcode := ""
                        qrCalls := page.qrCalls ++ [⟨url, 180, 180⟩] }, none⟩)) := by
  unfold productUrl at hfetch
  refine ⟨fun hstatus => ?_, fun hstatus props name hjson hproduct hname => ?_⟩
  · unfold loadProduct productUrl
    simp only [hpid, if_false, encodeURIComponent_ofString, hfetch, hstatus, ne_eq,
      not_false_eq_true, if_true]
  · obtain ⟨detail, text, -, hdetail, -, hstarts⟩ := detailModel_of_isProduct host hproduct
    obtain ⟨rest, hrest⟩ := hstarts name hname
    refine ⟨detail, rest, hdetail, hrest, ?_, ?_, ?_, fun htext => ?_⟩
    · rw [← hrest]; rfl
    · unfold loadProduct
      simp only [hpid, if_false, encodeURIComponent_ofString, hfetch, hstatus, hjson, hdetail,
        ne_eq, not_true_eq_false]
      split <;> rfl
    · unfold loadProduct
      simp only [hpid, if_false, encodeURIComponent_ofString, hfetch, hstatus, hjson, hdetail,
        ne_eq, not_true_eq_false]
      split <;> rfl
    · obtain ⟨pidText, pidEncoded, -, -, hurl⟩ := qrUrl_of_hasTextPid host htext
      refine ⟨host.origin ++ host.pathname ++ "?pid=" ++ pidEncoded, ?_⟩
      unfold loadProduct productUrl
      simp only [hpid, if_false, encodeURIComponent_ofString, hfetch, hstatus, hjson, hdetail,
        hurl, ne_eq, not_true_eq_false]

/-- Witness of C6: an unknown identifier is answered 404 and gives the not-found
message; `p1` is answered 200 and gives an `h2` title that starts with
`Malbec`. -/
theorem loadProduct_outcome_witness :
    loadProduct demoHost (some "missing") Page.blank
        = ⟨{ Page.blank with
              requests := Page.blank.requests ++ [productUrl "missing"]
              product := "<p>No encontrado</p>" }, none⟩
      ∧ ∃ detail rest, detailModel demoHost malbec = .ok detail
          ∧ detail.title = "Malbec" ++ rest
          ∧ detail.render
            = "\n    <h2>" ++ (("Malbec" : JSString) ++ rest) ++ "</h2>\n    <div>"
              ++ detail.subtitle
              ++ "</div>\n    <p>" ++ detail.description
              ++ "</p>\n    <div class=\"price\">" ++ detail.price
              ++ " <span class=\"note\">Lista: " ++ detail.note ++ "</span></div>\n    "
              ++ (match detail.badge with
                  | some text => ("<div class=\"badge\">" : JSString) ++ text ++ "</div>"
                  | none => "")
              ++ "\n    <div>Estado: " ++ detail.stock ++ "</div>\n  "
          ∧ (loadProduct demoHost (some "p1") Page.blank).page.product = detail.render
          ∧ (loadProduct demoHost (some "p1") Page.blank).page.bodyReads
            = Page.blank.bodyReads + 1
          ∧ ∃ url, loadProduct demoHost (some "p1") Page.blank
              = ⟨{ Page.blank with
                    requests := Page.blank.requests ++ [productUrl "p1"]
                    bodyReads := Page.blank.bodyReads + 1
                    product := detail.render
                    qrcode := ""
                    qrCalls := Page.blank.qrCalls ++ [⟨url, 180, 180⟩] }, none⟩ :=
  ⟨(loadProduct_outcome demoHost "missing" Page.blank
      ⟨404, .ok (obj [("detail", str "Not found")])⟩ (by decide) rfl).1 (by decide),
   match (loadProduct_outcome demoHost "p1" Page.blank ⟨200, .ok malbec⟩ (by decide) rfl).2 rfl
      _ "Malbec" rfl rfl rfl with
   | ⟨detail, rest, hmodel, htitle, hrender, hproduct, hreads, hqr⟩ =>
       ⟨detail, rest, hmodel, htitle, hrender, hproduct, hreads, hqr rfl⟩⟩

end Wine
